import Mathlib

/-!
Shallow embedding of `src/src/Component/VideoInterview.js` (ProctorVision).

The component runs a detection loop on a 1000 ms `setInterval`.  Each tick
reads the video element, runs the object-detection model, and evaluates the
behavioral rules in source order (face absence, multiple faces, suspicious
items, look-away, eyes closed), appending events to the `eventLogs` React
state and updating the per-rule timer refs.  The CSV export derives an
integrity score from the accumulated log by substring-filtering event texts.

Times are `Int` milliseconds (JS `Date.now()`), bounding-box coordinates are
`ℚ` (JS numbers), the ISO timestamp string of a tick is carried as an opaque
`String` field of the tick.  Within one tick the five rule branches are
independent (no branch reads a ref another branch wrote in the same tick),
so the state update is expressed as a simultaneous record update whose
event list is the in-order concatenation of the branches' emissions.
-/

namespace ProctorVision

/-- One detection returned by the model: `{class, bbox: [x, y, width, height]}`.
`cls` models the JS field `class`. -/
structure Pred where
  cls : String
  bboxX : ℚ
  bboxY : ℚ
  bboxW : ℚ
  bboxH : ℚ
deriving DecidableEq

/-- One firing of the interval callback: current time (`Date.now()`), the ISO
timestamp string, readiness of the video element (`readyState >= 2`), the
model's detections, and the video dimensions. -/
structure Tick where
  time : Int
  tsStr : String
  ready : Bool
  preds : List Pred
  videoWidth : ℚ
  videoHeight : ℚ
deriving DecidableEq

/-- One entry of `eventLogs`: `{ timestamp, event }`. -/
structure LogEntry where
  timestamp : String
  event : String
deriving DecidableEq

/-- The mutable state of the component relevant to the detection loop: the
four timer refs (lines 17-20), the `faceDetected` flag, and `eventLogs`. -/
structure State where
  lastFaceCheckTime : Int
  lastMultipleFacesTime : Int
  lastItemDetectionTime : Int
  lastLookAwayTime : Int
  faceDetected : Bool
  eventLogs : List LogEntry
deriving DecidableEq

/-- Line 6: `const suspiciousItems = [...]`. -/
def suspiciousItems : List String := ["cell phone", "book", "laptop", "keyboard", "remote"]

/-- Lines 42-46: horizontal center of the bbox normalized by the video width,
looking away when outside [0.35, 0.65]. -/
def checkLookingAwayBoundingBox (p : Pred) (videoWidth : ℚ) : Bool :=
  let faceCenterX := p.bboxX + p.bboxW / 2
  let normalizedX := faceCenterX / videoWidth
  decide (normalizedX < 0.35) || decide (normalizedX > 0.65)

/-- Lines 48-51: bbox height normalized by the video height, below 0.1. -/
def checkEyesClosed (p : Pred) (videoHeight : ℚ) : Bool :=
  let ratio := p.bboxH / videoHeight
  decide (ratio < 0.1)

/-- Line 67: `predictions.filter(p => p.class === 'person')`. -/
def personPreds (preds : List Pred) : List Pred :=
  preds.filter (fun p => p.cls == "person")

/-- Line 80 event text. -/
def noFaceText : String := "No face detected for more than 5 seconds"

/-- Line 90 event text (template literal with the person count). -/
def multipleFacesText (n : Nat) : String :=
  "Multiple faces detected (" ++ toString n ++ ")"

/-- Line 97 event text (template literal with the detection label). -/
def suspiciousText (label : String) : String :=
  "Suspicious Item Detected: " ++ label

/-- Line 107 event text. -/
def lookAwayText : String := "User looking away"

/-- Line 112 event text. -/
def eyesClosedText : String := "Eyes closed detected"

/-- Lines 96-98: one `addEvent` per prediction whose class is in
`suspiciousItems`, in prediction order. -/
def suspEvents (ts : String) (preds : List Pred) : List LogEntry :=
  (preds.filter (fun p => suspiciousItems.contains p.cls)).map
    (fun p => ⟨ts, suspiciousText p.cls⟩)

/-- The events appended by one firing of the interval callback (lines 60-116),
in `addEvent` call order: face-absence branch, multiple-faces branch,
suspicious-items branch, then the single-person look-away and eyes-closed
branches.  A not-ready tick (line 61) emits nothing. -/
def emitted (s : State) (tk : Tick) : List LogEntry :=
  if tk.ready then
    (if (personPreds tk.preds).length = 0 ∧ tk.time - s.lastFaceCheckTime > 5000 then
        [⟨tk.tsStr, noFaceText⟩] else [])
    ++ (if (personPreds tk.preds).length > 1 ∧ tk.time - s.lastMultipleFacesTime > 5000 then
        [⟨tk.tsStr, multipleFacesText (personPreds tk.preds).length⟩] else [])
    ++ (if tk.time - s.lastItemDetectionTime > 2000 then
        suspEvents tk.tsStr tk.preds else [])
    ++ (if (personPreds tk.preds).length = 1 then
          match personPreds tk.preds with
          | person :: _ =>
            (if checkLookingAwayBoundingBox person tk.videoWidth = true ∧
                tk.time - s.lastLookAwayTime > 5000 then
              [⟨tk.tsStr, lookAwayText⟩] else [])
            ++ (if checkEyesClosed person tk.videoHeight = true then
              [⟨tk.tsStr, eyesClosedText⟩] else [])
          | [] => []
        else [])
  else []

/-- One firing of the interval callback (lines 60-116) as a state transformer.
A not-ready tick returns early (line 61).  Otherwise: the face branch
(lines 79-86) updates `lastFaceCheckTime` and `faceDetected`, the
multiple-faces branch (lines 88-92) updates `lastMultipleFacesTime` when it
fires, the suspicious-items branch (lines 94-100) updates
`lastItemDetectionTime` whenever its time window has elapsed (whether or not
any suspicious item was detected), and the look-away branch (lines 103-109)
updates `lastLookAwayTime` when it fires.  Events are appended in `addEvent`
call order. -/
def step (s : State) (tk : Tick) : State :=
  if tk.ready then
    { lastFaceCheckTime :=
        if ((personPreds tk.preds).length = 0 ∧ tk.time - s.lastFaceCheckTime > 5000)
            ∨ (personPreds tk.preds).length ≥ 1 then
          tk.time else s.lastFaceCheckTime
      faceDetected :=
        if (personPreds tk.preds).length = 0 ∧ tk.time - s.lastFaceCheckTime > 5000 then false
        else if (personPreds tk.preds).length ≥ 1 then true else s.faceDetected
      lastMultipleFacesTime :=
        if (personPreds tk.preds).length > 1 ∧ tk.time - s.lastMultipleFacesTime > 5000 then
          tk.time else s.lastMultipleFacesTime
      lastItemDetectionTime :=
        if tk.time - s.lastItemDetectionTime > 2000 then
          tk.time else s.lastItemDetectionTime
      lastLookAwayTime :=
        if (personPreds tk.preds).length = 1 then
          match personPreds tk.preds with
          | person :: _ =>
            if checkLookingAwayBoundingBox person tk.videoWidth = true ∧
                tk.time - s.lastLookAwayTime > 5000 then
              tk.time else s.lastLookAwayTime
          | [] => s.lastLookAwayTime
        else s.lastLookAwayTime
      eventLogs := s.eventLogs ++ emitted s tk }
  else s

/-- The state at mount: `lastFaceCheckTime` is initialized to `Date.now()`
(line 17, the mount time `t0`), the other timer refs to `0` (lines 18-20),
`faceDetected` to `false` (line 11), `eventLogs` to `[]` (line 12). -/
def initState (t0 : Int) : State :=
  { lastFaceCheckTime := t0
    lastMultipleFacesTime := 0
    lastItemDetectionTime := 0
    lastLookAwayTime := 0
    faceDetected := false
    eventLogs := [] }

/-- Folding the interval callback over a sequence of ticks. -/
def runTrace (s : State) (ticks : List Tick) : State :=
  ticks.foldl step s

/-- Contiguous-sublist test on character lists, modelling JS
`String.prototype.includes`. -/
def hasInfix (n : List Char) : List Char → Bool
  | [] => n.isEmpty
  | c :: t => n.isPrefixOf (c :: t) || hasInfix n t

/-- `hay.includes(needle)` as used on lines 127-131. -/
def includes (needle hay : String) : Bool :=
  hasInfix needle.data hay.data

/-- `eventLogs.filter(log => log.event.includes(needle)).length`
(lines 127-131). -/
def countEvents (logs : List LogEntry) (needle : String) : Nat :=
  (logs.filter (fun l => includes needle l.event)).length

/-- Line 133: the weighted deduction total. -/
def totalDeductions (logs : List LogEntry) : Nat :=
  countEvents logs "No face detected" * 5 +
  countEvents logs "Multiple faces detected" * 5 +
  countEvents logs "Suspicious Item Detected" * 10 +
  countEvents logs "Eyes closed" * 10 +
  countEvents logs "looking away" * 5

/-- Line 134: `Math.max(0, 100 - totalDeductions)`. -/
def integrityScore (logs : List LogEntry) : Int :=
  max 0 (100 - (totalDeductions logs : Int))

/-- The kinds of events the detection loop can append, with the payload that
appears in the event text. -/
inductive EventKind where
  | noFace
  | multipleFaces (count : Nat)
  | suspiciousItem (label : String)
  | lookingAway
  | eyesClosed
deriving DecidableEq

/-- The event text the loop produces for each kind. -/
def mkText : EventKind → String
  | .noFace => noFaceText
  | .multipleFaces n => multipleFacesText n
  | .suspiciousItem l => suspiciousText l
  | .lookingAway => lookAwayText
  | .eyesClosed => eyesClosedText

/-- The loop only ever emits suspicious-item events whose label is in
`suspiciousItems` (line 97's filter); other kinds have no constraint. -/
def kindWF : EventKind → Bool
  | .suspiciousItem l => suspiciousItems.contains l
  | _ => true

def kindIsNoFace : EventKind → Bool
  | .noFace => true
  | _ => false

def kindIsMultipleFaces : EventKind → Bool
  | .multipleFaces _ => true
  | _ => false

def kindIsSuspicious : EventKind → Bool
  | .suspiciousItem _ => true
  | _ => false

def kindIsLookAway : EventKind → Bool
  | .lookingAway => true
  | _ => false

def kindIsEyesClosed : EventKind → Bool
  | .eyesClosed => true
  | _ => false

/-- A log made of rendered events, each carrying its own timestamp string. -/
def renderLog (ks : List (String × EventKind)) : List LogEntry :=
  ks.map (fun p => ⟨p.1, mkText p.2⟩)

/-- Number of entries of a given kind. -/
def countKind (ks : List (String × EventKind)) (f : EventKind → Bool) : Nat :=
  (ks.filter (fun p => f p.2)).length

/-! ## String helper lemmas -/

lemma subset_of_isPrefixOf : ∀ {l h : List Char}, l.isPrefixOf h = true → ∀ c ∈ l, c ∈ h := by
  intro l
  induction l with
  | nil => intro h _ c hc; exact absurd hc (List.not_mem_nil c)
  | cons a as ih =>
    intro h hp c hc
    cases h with
    | nil => simp [List.isPrefixOf] at hp
    | cons b bs =>
      rw [List.isPrefixOf_cons₂, Bool.and_eq_true] at hp
      obtain ⟨hab, hrest⟩ := hp
      rcases List.mem_cons.mp hc with hca | hcas
      · exact List.mem_cons.mpr (Or.inl (hca.trans (eq_of_beq hab)))
      · exact List.mem_cons.mpr (Or.inr (ih hrest c hcas))

lemma isPrefixOf_append_self (l t : List Char) : l.isPrefixOf (l ++ t) = true := by
  induction l with
  | nil => simp
  | cons a as ih => simp [List.isPrefixOf_cons₂, ih]

lemma hasInfix_eq_false_of_not_mem {c : Char} {n h : List Char}
    (hcn : c ∈ n) (hch : c ∉ h) : hasInfix n h = false := by
  induction h with
  | nil =>
    cases n with
    | nil => exact absurd hcn (List.not_mem_nil c)
    | cons a as => simp [hasInfix]
  | cons a t ih =>
    rw [hasInfix, Bool.or_eq_false_iff]
    refine ⟨?_, ih (fun hm => hch (List.mem_cons.mpr (Or.inr hm)))⟩
    rcases hb : (n.isPrefixOf (a :: t)) with _ | _
    · rfl
    · exact absurd (subset_of_isPrefixOf hb c hcn) hch

lemma hasInfix_of_isPrefixOf {n h : List Char} (hp : n.isPrefixOf h = true) :
    hasInfix n h = true := by
  cases h with
  | nil =>
    cases n with
    | nil => rfl
    | cons a as => simp [List.isPrefixOf] at hp
  | cons a t => simp [hasInfix, hp]

lemma digitChar_isDigit {m : Nat} (hm : m < 10) : (Nat.digitChar m).isDigit = true := by
  interval_cases m <;> decide

lemma toDigitsCore_digits :
    ∀ (fuel n : Nat) (ds : List Char), (∀ c ∈ ds, c.isDigit = true) →
      ∀ c ∈ Nat.toDigitsCore 10 fuel n ds, c.isDigit = true := by
  intro fuel
  induction fuel with
  | zero => intro n ds hds c hc; exact hds c hc
  | succ f ih =>
    intro n ds hds c hc
    rw [Nat.toDigitsCore] at hc
    by_cases h0 : n / 10 = 0
    · rw [if_pos h0] at hc
      rcases List.mem_cons.mp hc with h | h
      · exact h ▸ digitChar_isDigit (Nat.mod_lt n (by decide))
      · exact hds c h
    · rw [if_neg h0] at hc
      refine ih (n / 10) _ ?_ c hc
      intro d hd
      rcases List.mem_cons.mp hd with h | h
      · exact h ▸ digitChar_isDigit (Nat.mod_lt n (by decide))
      · exact hds d h

lemma toString_nat_digits (n : Nat) : ∀ c ∈ (toString n).data, c.isDigit = true := by
  have h : (toString n).data = Nat.toDigits 10 n := rfl
  rw [h, Nat.toDigits]
  exact toDigitsCore_digits (n + 1) n [] (by simp)

lemma data_append (a b : String) : (a ++ b).data = a.data ++ b.data := by
  cases a; cases b; rfl

/-- A needle containing a character that is neither in the fixed part of the
multiple-faces text, nor a digit, nor the closing parenthesis, is not a
substring of the multiple-faces text for any count. -/
lemma includes_mfText_eq_false {c : Char} (needle : String) (n : Nat)
    (hc : c ∈ needle.data) (h1 : c ∉ ("Multiple faces detected (").data)
    (hd : c.isDigit = false) (h2 : c ≠ ')') :
    includes needle (multipleFacesText n) = false := by
  rw [multipleFacesText, includes, data_append, data_append]
  apply hasInfix_eq_false_of_not_mem hc
  intro hm
  rcases List.mem_append.mp hm with hm | hm
  · rcases List.mem_append.mp hm with hm | hm
    · exact absurd hm h1
    · rw [toString_nat_digits n c hm] at hd
      exact Bool.true_eq_false.mp hd
  · rcases List.mem_cons.mp hm with hm | hm
    · exact h2 hm
    · exact absurd hm (List.not_mem_nil c)

lemma includes_mf_mfText (n : Nat) :
    includes "Multiple faces detected" (multipleFacesText n) = true := by
  rw [multipleFacesText, includes, data_append, data_append]
  apply hasInfix_of_isPrefixOf
  have h1 : ("Multiple faces detected (").data
      = ("Multiple faces detected").data ++ [' ', '('] := by decide
  rw [h1, List.append_assoc, List.append_assoc]
  exact isPrefixOf_append_self _ _

lemma includes_susp_suspText (l : String) :
    includes "Suspicious Item Detected" (suspiciousText l) = true := by
  rw [suspiciousText, includes, data_append]
  apply hasInfix_of_isPrefixOf
  have h1 : ("Suspicious Item Detected: ").data
      = ("Suspicious Item Detected").data ++ [':', ' '] := by decide
  rw [h1, List.append_assoc]
  exact isPrefixOf_append_self _ _

lemma mem_suspiciousItems_cases {l : String} (hl : suspiciousItems.contains l = true) :
    l = "cell phone" ∨ l = "book" ∨ l = "laptop" ∨ l = "keyboard" ∨ l = "remote" := by
  simpa [suspiciousItems] using hl

/-! ## Classification of the five filter needles against the five event texts -/

lemma includes_nf_mkText (k : EventKind) (hk : kindWF k = true) :
    includes "No face detected" (mkText k) = kindIsNoFace k := by
  cases k with
  | noFace => decide
  | multipleFaces n =>
    exact includes_mfText_eq_false (c := 'N') _ n (by decide) (by decide) (by decide) (by decide)
  | suspiciousItem l =>
    rcases mem_suspiciousItems_cases hk with rfl | rfl | rfl | rfl | rfl <;> decide
  | lookingAway => decide
  | eyesClosed => decide

lemma includes_mf_mkText (k : EventKind) (hk : kindWF k = true) :
    includes "Multiple faces detected" (mkText k) = kindIsMultipleFaces k := by
  cases k with
  | noFace => decide
  | multipleFaces n => exact includes_mf_mfText n
  | suspiciousItem l =>
    rcases mem_suspiciousItems_cases hk with rfl | rfl | rfl | rfl | rfl <;> decide
  | lookingAway => decide
  | eyesClosed => decide

lemma includes_si_mkText (k : EventKind) (hk : kindWF k = true) :
    includes "Suspicious Item Detected" (mkText k) = kindIsSuspicious k := by
  cases k with
  | noFace => decide
  | multipleFaces n =>
    exact includes_mfText_eq_false (c := 'S') _ n (by decide) (by decide) (by decide) (by decide)
  | suspiciousItem l => exact includes_susp_suspText l
  | lookingAway => decide
  | eyesClosed => decide

lemma includes_ec_mkText (k : EventKind) (hk : kindWF k = true) :
    includes "Eyes closed" (mkText k) = kindIsEyesClosed k := by
  cases k with
  | noFace => decide
  | multipleFaces n =>
    exact includes_mfText_eq_false (c := 'y') _ n (by decide) (by decide) (by decide) (by decide)
  | suspiciousItem l =>
    rcases mem_suspiciousItems_cases hk with rfl | rfl | rfl | rfl | rfl <;> decide
  | lookingAway => decide
  | eyesClosed => decide

lemma includes_la_mkText (k : EventKind) (hk : kindWF k = true) :
    includes "looking away" (mkText k) = kindIsLookAway k := by
  cases k with
  | noFace => decide
  | multipleFaces n =>
    exact includes_mfText_eq_false (c := 'w') _ n (by decide) (by decide) (by decide) (by decide)
  | suspiciousItem l =>
    rcases mem_suspiciousItems_cases hk with rfl | rfl | rfl | rfl | rfl <;> decide
  | lookingAway => decide
  | eyesClosed => decide

/-! ## Counting lemmas -/

lemma countEvents_nil (nd : String) : countEvents [] nd = 0 := rfl

lemma countEvents_append (l1 l2 : List LogEntry) (nd : String) :
    countEvents (l1 ++ l2) nd = countEvents l1 nd + countEvents l2 nd := by
  simp [countEvents, List.filter_append]

lemma countEvents_cons_pos {e : LogEntry} {nd : String} (l : List LogEntry)
    (h : includes nd e.event = true) :
    countEvents (e :: l) nd = countEvents l nd + 1 := by
  simp [countEvents, List.filter_cons, h]

lemma countEvents_cons_neg {e : LogEntry} {nd : String} (l : List LogEntry)
    (h : includes nd e.event = false) :
    countEvents (e :: l) nd = countEvents l nd := by
  simp [countEvents, List.filter_cons, h]

lemma suspEvents_cons (ts : String) (p : Pred) (t : List Pred) :
    suspEvents ts (p :: t) =
      (if suspiciousItems.contains p.cls = true then [⟨ts, suspiciousText p.cls⟩] else [])
        ++ suspEvents ts t := by
  simp only [suspEvents, List.filter_cons]
  split <;> simp_all

lemma countEvents_suspEvents_zero (ts : String) (preds : List Pred) {nd : String}
    (h : ∀ l, suspiciousItems.contains l = true → includes nd (suspiciousText l) = false) :
    countEvents (suspEvents ts preds) nd = 0 := by
  induction preds with
  | nil => rfl
  | cons p t ih =>
    rw [suspEvents_cons, countEvents_append, ih]
    by_cases hc : suspiciousItems.contains p.cls = true
    · rw [if_pos hc, countEvents_cons_neg [] (h p.cls hc)]
      rfl
    · rw [if_neg hc]
      rfl

/-- Every entry generated by the suspicious-items branch matches the
suspicious-items filter needle. -/
lemma countEvents_suspEvents_si (ts : String) (preds : List Pred) :
    countEvents (suspEvents ts preds) "Suspicious Item Detected"
      = (preds.filter (fun p => suspiciousItems.contains p.cls)).length := by
  induction preds with
  | nil => rfl
  | cons p t ih =>
    rw [suspEvents_cons, countEvents_append, ih, List.filter_cons]
    by_cases hc : suspiciousItems.contains p.cls = true
    · rw [if_pos hc, countEvents_cons_pos [] (includes_susp_suspText p.cls), if_pos hc]
      simp [countEvents]
      omega
    · rw [if_neg hc, if_neg hc]
      simp [countEvents_nil]

/-! ## Structural lemmas about the step function -/

lemma step_eventLogs (s : State) (tk : Tick) :
    (step s tk).eventLogs = s.eventLogs ++ emitted s tk := by
  by_cases hr : tk.ready = true <;> simp [step, emitted, hr]

lemma countEvents_step (s : State) (tk : Tick) (nd : String) :
    countEvents (step s tk).eventLogs nd
      = countEvents s.eventLogs nd + countEvents (emitted s tk) nd := by
  rw [step_eventLogs, countEvents_append]

lemma step_not_ready (s : State) (tk : Tick) (hr : tk.ready = false) : step s tk = s := by
  simp [step, hr]

lemma emitted_not_ready (s : State) (tk : Tick) (hr : tk.ready = false) :
    emitted s tk = [] := by
  simp [emitted, hr]

/-! ## Needle corollaries for variable-payload event texts -/

lemma incl_nf_mf (n : Nat) : includes "No face detected" (multipleFacesText n) = false :=
  includes_nf_mkText (.multipleFaces n) rfl

lemma incl_si_mf (n : Nat) :
    includes "Suspicious Item Detected" (multipleFacesText n) = false :=
  includes_si_mkText (.multipleFaces n) rfl

lemma incl_ec_mf (n : Nat) : includes "Eyes closed" (multipleFacesText n) = false :=
  includes_ec_mkText (.multipleFaces n) rfl

lemma incl_la_mf (n : Nat) : includes "looking away" (multipleFacesText n) = false :=
  includes_la_mkText (.multipleFaces n) rfl

lemma incl_nf_susp {l : String} (hl : suspiciousItems.contains l = true) :
    includes "No face detected" (suspiciousText l) = false :=
  includes_nf_mkText (.suspiciousItem l) hl

lemma incl_mf_susp {l : String} (hl : suspiciousItems.contains l = true) :
    includes "Multiple faces detected" (suspiciousText l) = false :=
  includes_mf_mkText (.suspiciousItem l) hl

lemma incl_ec_susp {l : String} (hl : suspiciousItems.contains l = true) :
    includes "Eyes closed" (suspiciousText l) = false :=
  includes_ec_mkText (.suspiciousItem l) hl

lemma incl_la_susp {l : String} (hl : suspiciousItems.contains l = true) :
    includes "looking away" (suspiciousText l) = false :=
  includes_la_mkText (.suspiciousItem l) hl

/-! ## Needle table for the three constant event texts -/

lemma incl_nf_noFaceText : includes "No face detected" noFaceText = true := by decide

lemma incl_mf_noFaceText : includes "Multiple faces detected" noFaceText = false := by decide

lemma incl_si_noFaceText : includes "Suspicious Item Detected" noFaceText = false := by decide

lemma incl_ec_noFaceText : includes "Eyes closed" noFaceText = false := by decide

lemma incl_la_noFaceText : includes "looking away" noFaceText = false := by decide

lemma incl_nf_lookAwayText : includes "No face detected" lookAwayText = false := by decide

lemma incl_mf_lookAwayText : includes "Multiple faces detected" lookAwayText = false := by decide

lemma incl_si_lookAwayText : includes "Suspicious Item Detected" lookAwayText = false := by decide

lemma incl_ec_lookAwayText : includes "Eyes closed" lookAwayText = false := by decide

lemma incl_la_lookAwayText : includes "looking away" lookAwayText = true := by decide

lemma incl_nf_eyesClosedText : includes "No face detected" eyesClosedText = false := by decide

lemma incl_mf_eyesClosedText : includes "Multiple faces detected" eyesClosedText = false := by decide

lemma incl_si_eyesClosedText : includes "Suspicious Item Detected" eyesClosedText = false := by decide

lemma incl_ec_eyesClosedText : includes "Eyes closed" eyesClosedText = true := by decide

lemma incl_la_eyesClosedText : includes "looking away" eyesClosedText = false := by decide

/-! ## The face-absence branch -/

/-- On a ready tick with zero person detections the loop can only emit the
no-face event (when its gate is open) and suspicious-item events (when that
window has elapsed). -/
lemma emitted_absent (s : State) (tk : Tick) (hr : tk.ready = true)
    (hp : personPreds tk.preds = []) :
    emitted s tk =
      (if tk.time - s.lastFaceCheckTime > 5000 then [⟨tk.tsStr, noFaceText⟩] else [])
      ++ (if tk.time - s.lastItemDetectionTime > 2000 then
            suspEvents tk.tsStr tk.preds else []) := by
  simp [emitted, hr, hp]

lemma step_lastFace_absent (s : State) (tk : Tick) (hr : tk.ready = true)
    (hp : personPreds tk.preds = [])
    (ht : ¬ tk.time - s.lastFaceCheckTime > 5000) :
    (step s tk).lastFaceCheckTime = s.lastFaceCheckTime := by
  simp [step, hr, hp, ht]

lemma countEvents_emitted_nf_quiet (s : State) (tk : Tick) (hr : tk.ready = true)
    (hp : personPreds tk.preds = [])
    (ht : ¬ tk.time - s.lastFaceCheckTime > 5000) :
    countEvents (emitted s tk) "No face detected" = 0 := by
  rw [emitted_absent s tk hr hp, countEvents_append, if_neg ht]
  by_cases hti : tk.time - s.lastItemDetectionTime > 2000
  · rw [if_pos hti, countEvents_suspEvents_zero _ _ (fun l hl => incl_nf_susp hl)]
    rfl
  · rw [if_neg hti]
    rfl

lemma countEvents_emitted_nf_fire (s : State) (tk : Tick) (hr : tk.ready = true)
    (hp : personPreds tk.preds = [])
    (ht : tk.time - s.lastFaceCheckTime > 5000) :
    countEvents (emitted s tk) "No face detected" = 1 := by
  rw [emitted_absent s tk hr hp, countEvents_append, if_pos ht,
    countEvents_cons_pos [] incl_nf_noFaceText]
  by_cases hti : tk.time - s.lastItemDetectionTime > 2000
  · rw [if_pos hti, countEvents_suspEvents_zero _ _ (fun l hl => incl_nf_susp hl)]
    rfl
  · rw [if_neg hti]
    rfl

/-- During a run of ready ticks that all report zero persons and all fall
within 5000 ms of the last confirmed presence, the gate timestamp does not
move and no no-face event is emitted. -/
lemma absence_run (s : State) (ticks : List Tick)
    (h : ∀ tk ∈ ticks, tk.ready = true ∧ personPreds tk.preds = [] ∧
      tk.time - s.lastFaceCheckTime ≤ 5000) :
    (runTrace s ticks).lastFaceCheckTime = s.lastFaceCheckTime ∧
    countEvents (runTrace s ticks).eventLogs "No face detected"
      = countEvents s.eventLogs "No face detected" := by
  induction ticks generalizing s with
  | nil => exact ⟨rfl, rfl⟩
  | cons tk rest ih =>
    obtain ⟨hr, hp, hle⟩ := h tk (List.mem_cons_self tk rest)
    have ht : ¬ tk.time - s.lastFaceCheckTime > 5000 := by omega
    have hlf := step_lastFace_absent s tk hr hp ht
    have hrest : ∀ tk2 ∈ rest, tk2.ready = true ∧ personPreds tk2.preds = [] ∧
        tk2.time - (step s tk).lastFaceCheckTime ≤ 5000 := by
      intro tk2 hm
      obtain ⟨a, b, c⟩ := h tk2 (List.mem_cons_of_mem _ hm)
      exact ⟨a, b, by rw [hlf]; exact c⟩
    obtain ⟨ih1, ih2⟩ := ih (step s tk) hrest
    have e : runTrace s (tk :: rest) = runTrace (step s tk) rest := rfl
    refine ⟨?_, ?_⟩
    · rw [e, ih1, hlf]
    · rw [e, ih2, countEvents_step, countEvents_emitted_nf_quiet s tk hr hp ht]
      omega

/-- A ready, zero-person trace used as the concrete absence run: ticks every
1000 ms from 1000 to 12000 with no person detections. -/
def absTick (t : Int) : Tick :=
  { time := t, tsStr := "", ready := true, preds := [], videoWidth := 640, videoHeight := 480 }

def c1Trace : List Tick :=
  (List.range 12).map (fun i => absTick (1000 * ((i : Int) + 1)))

/-- C1, counterexample.  A run of 12 ready sampling ticks (1000 ms apart,
times 1000..12000) in which every tick reports zero person detections, from a
session mounted at time 0: the absence lasts well over 5000 ms with no
intervening presence, yet TWO no-face events are emitted (at 6000 and at
12000), because line 81 resets `lastFaceCheckTime` when the event fires.
The claim asserts exactly one event for such a run. -/
theorem c1_counterexample :
    (∀ tk ∈ c1Trace, tk.ready = true ∧ personPreds tk.preds = []) ∧
    countEvents (runTrace (initState 0) c1Trace).eventLogs "No face detected" = 2 := by
  constructor
  · decide
  · decide

/-- C1, amended.  During a continuous absence: (1) while every tick stays
within 5000 ms of the gate timestamp (the last confirmed presence or session
start), no no-face event is emitted; (2) the first tick beyond the 5000 ms
mark emits exactly one no-face event; (3) but the rule does NOT stay silent
while the absence continues: since the gate timestamp is reset on firing, a
continuing absence emits a further no-face event each time more than 5000 ms
pass since the previous one, with no presence regained in between. -/
theorem c1_absence_amended :
    (∀ (s : State) (ticks : List Tick),
        (∀ tk ∈ ticks, tk.ready = true ∧ personPreds tk.preds = [] ∧
          tk.time - s.lastFaceCheckTime ≤ 5000) →
        countEvents (runTrace s ticks).eventLogs "No face detected"
          = countEvents s.eventLogs "No face detected")
    ∧ (∀ (s : State) (pre : List Tick) (tkF : Tick),
        (∀ tk ∈ pre, tk.ready = true ∧ personPreds tk.preds = [] ∧
          tk.time - s.lastFaceCheckTime ≤ 5000) →
        tkF.ready = true → personPreds tkF.preds = [] →
        tkF.time - s.lastFaceCheckTime > 5000 →
        countEvents (runTrace s (pre ++ [tkF])).eventLogs "No face detected"
          = countEvents s.eventLogs "No face detected" + 1)
    ∧ (∃ ticks : List Tick,
        (∀ tk ∈ ticks, tk.ready = true ∧ personPreds tk.preds = []) ∧
        2 ≤ countEvents (runTrace (initState 0) ticks).eventLogs "No face detected") := by
  refine ⟨?_, ?_, ?_⟩
  · intro s ticks h
    exact (absence_run s ticks h).2
  · intro s pre tkF hpre hr hp ht
    have e : runTrace s (pre ++ [tkF]) = step (runTrace s pre) tkF := by
      simp [runTrace, List.foldl_append]
    obtain ⟨h1, h2⟩ := absence_run s pre hpre
    rw [e, countEvents_step, h2, countEvents_emitted_nf_fire _ tkF hr hp (by rw [h1]; exact ht)]
  · exact ⟨c1Trace, by decide, by decide⟩

/-- C1, amended, witness: one quiet tick then a firing tick from a fresh
session at time 0 yields exactly one no-face event. -/
theorem c1_absence_amended_witness :
    countEvents (runTrace (initState 0) ([absTick 1000] ++ [absTick 6000])).eventLogs
        "No face detected"
      = countEvents (initState 0).eventLogs "No face detected" + 1 :=
  c1_absence_amended.2.1 (initState 0) [absTick 1000] (absTick 6000)
    (by decide) (by decide) (by decide) (by decide)

/-! ## Sampler scheduling model (for the in-flight property)

Modelled from the source's scheduling pattern (lines 60-116):
`setInterval(async () => {...}, 1000)` invokes the callback at every tick;
the callback's only early exit is the readiness check on line 61, after
which it awaits `model.detect`.  Under JS event-loop semantics the timer
does not wait for the async callback, so the cycle started at a ready tick
remains in flight until its detection call resolves, and nothing in the
source prevents the next tick from starting another cycle meanwhile.  A
cycle started at time `t` whose detection takes `dur t` milliseconds is in
flight throughout `[t, t + dur t)`. -/

/-- The times at which detection cycles start: every ready tick (there is no
in-flight guard in the source). -/
def sampledCycleStarts (ticks : List Tick) : List Int :=
  (ticks.filter (fun tk => tk.ready)).map (fun tk => tk.time)

/-- How many cycles are in flight at instant `t`, given each cycle's
detection duration. -/
def cyclesInFlightAt (starts : List Int) (dur : Int → Int) (t : Int) : Nat :=
  (starts.filter (fun s0 => decide (s0 ≤ t) && decide (t < s0 + dur s0))).length

/-- C2: with ready ticks at 1000 and 2000 and a detection call that takes
2500 ms, two detection cycles are in flight simultaneously at time 2000 —
the source has no at-most-one-in-flight guard, contradicting the claim that
the tick at 2000 would be skipped. -/
theorem c2_overlap_bug :
    cyclesInFlightAt (sampledCycleStarts [absTick 1000, absTick 2000])
      (fun _ => 2500) 2000 = 2 := by
  decide

/-! ## Score computation (C3) -/

lemma countEvents_renderLog (nd : String) (f : EventKind → Bool)
    (hmatch : ∀ k, kindWF k = true → includes nd (mkText k) = f k)
    (ks : List (String × EventKind)) (h : ∀ p ∈ ks, kindWF p.2 = true) :
    countEvents (renderLog ks) nd = countKind ks f := by
  induction ks with
  | nil => rfl
  | cons p t ih =>
    have hk := h p (List.mem_cons_self p t)
    have ht : ∀ q ∈ t, kindWF q.2 = true := fun q hq => h q (List.mem_cons_of_mem _ hq)
    have hm := hmatch p.2 hk
    have e1 : renderLog (p :: t) = ⟨p.1, mkText p.2⟩ :: renderLog t := rfl
    by_cases hf : f p.2 = true
    · rw [e1, countEvents_cons_pos _ (by rw [← hf]; exact hm), ih ht]
      simp [countKind, List.filter_cons, hf]
    · have hf2 : f p.2 = false := by revert hf; cases (f p.2) <;> simp
      rw [e1, countEvents_cons_neg _ (by rw [← hf2]; exact hm), ih ht]
      simp [countKind, List.filter_cons, hf2]

/-- C3: for every log of rendered events (the only event texts the loop
produces, suspicious labels drawn from `suspiciousItems`), the exported
integrity score equals `max 0 (100 - Σ count(kind) × weight(kind))` with
weights Absence=5, MultipleFaces=5, SuspiciousItem=10, EyesClosed=10,
LookingAway=5; the score is an integer in [0, 100]; a log with one absence
and one suspicious-item event scores 85; a log with 12 absence events
scores 40. -/
theorem c3_score (ks : List (String × EventKind)) (h : ∀ p ∈ ks, kindWF p.2 = true) :
    (integrityScore (renderLog ks)
        = max 0 (100 - ((countKind ks kindIsNoFace * 5 + countKind ks kindIsMultipleFaces * 5
          + countKind ks kindIsSuspicious * 10 + countKind ks kindIsEyesClosed * 10
          + countKind ks kindIsLookAway * 5 : Nat) : Int)))
    ∧ 0 ≤ integrityScore (renderLog ks) ∧ integrityScore (renderLog ks) ≤ 100
    ∧ integrityScore (renderLog [("", .noFace), ("", .suspiciousItem "cell phone")]) = 85
    ∧ integrityScore (renderLog (List.replicate 12 ("", .noFace))) = 40 := by
  refine ⟨?_, ?_, ?_, by decide, by decide⟩
  · rw [integrityScore, totalDeductions,
      countEvents_renderLog _ _ includes_nf_mkText ks h,
      countEvents_renderLog _ _ includes_mf_mkText ks h,
      countEvents_renderLog _ _ includes_si_mkText ks h,
      countEvents_renderLog _ _ includes_ec_mkText ks h,
      countEvents_renderLog _ _ includes_la_mkText ks h]
  · exact le_max_left 0 _
  · have hd : (0 : Int) ≤ (totalDeductions (renderLog ks) : Int) := Int.natCast_nonneg _
    rw [integrityScore]
    exact max_le (by norm_num) (by omega)

/-- C3, witness: the general formula applied to a concrete two-event log. -/
theorem c3_score_witness :
    integrityScore (renderLog [("t", EventKind.noFace), ("t", EventKind.suspiciousItem "book")])
      = max 0 (100 - ((countKind [("t", EventKind.noFace), ("t", EventKind.suspiciousItem "book")]
          kindIsNoFace * 5
        + countKind [("t", EventKind.noFace), ("t", EventKind.suspiciousItem "book")]
          kindIsMultipleFaces * 5
        + countKind [("t", EventKind.noFace), ("t", EventKind.suspiciousItem "book")]
          kindIsSuspicious * 10
        + countKind [("t", EventKind.noFace), ("t", EventKind.suspiciousItem "book")]
          kindIsEyesClosed * 10
        + countKind [("t", EventKind.noFace), ("t", EventKind.suspiciousItem "book")]
          kindIsLookAway * 5 : Nat) : Int)) :=
  (c3_score [("t", EventKind.noFace), ("t", EventKind.suspiciousItem "book")] (by decide)).1

/-! ## Cooldown bookkeeping (C4) -/

lemma countEvents_emitted_mf_fire (s : State) (tk : Tick) (hr : tk.ready = true)
    (hgt : (personPreds tk.preds).length > 1)
    (htm : tk.time - s.lastMultipleFacesTime > 5000) :
    countEvents (emitted s tk) "Multiple faces detected" = 1 := by
  unfold emitted
  rw [if_pos hr, if_neg (by rintro ⟨h, -⟩; omega :
      ¬((personPreds tk.preds).length = 0 ∧ tk.time - s.lastFaceCheckTime > 5000)),
    if_pos ⟨hgt, htm⟩, if_neg (by omega : ¬(personPreds tk.preds).length = 1)]
  simp only [countEvents_append]
  rw [countEvents_cons_pos [] (includes_mf_mfText _)]
  by_cases hti : tk.time - s.lastItemDetectionTime > 2000
  · rw [if_pos hti, countEvents_suspEvents_zero _ _ (fun l hl => incl_mf_susp hl)]
    rfl
  · rw [if_neg hti]
    rfl

lemma countEvents_emitted_la_fire (s : State) (tk : Tick) (person : Pred)
    (hr : tk.ready = true) (hpp : personPreds tk.preds = [person])
    (hchk : checkLookingAwayBoundingBox person tk.videoWidth = true)
    (htm : tk.time - s.lastLookAwayTime > 5000) :
    countEvents (emitted s tk) "looking away" = 1 := by
  have hsusp : countEvents (if tk.time - s.lastItemDetectionTime > 2000 then
      suspEvents tk.tsStr tk.preds else []) "looking away" = 0 := by
    by_cases hti : tk.time - s.lastItemDetectionTime > 2000
    · rw [if_pos hti, countEvents_suspEvents_zero _ _ (fun l hl => incl_la_susp hl)]
    · rw [if_neg hti]
      rfl
  have heye : countEvents (if checkEyesClosed person tk.videoHeight = true then
      [(⟨tk.tsStr, eyesClosedText⟩ : LogEntry)] else []) "looking away" = 0 := by
    by_cases hec : checkEyesClosed person tk.videoHeight = true
    · rw [if_pos hec, countEvents_cons_neg [] incl_la_eyesClosedText]
      rfl
    · rw [if_neg hec]
      rfl
  have hla : countEvents [(⟨tk.tsStr, lookAwayText⟩ : LogEntry)] "looking away" = 1 :=
    countEvents_cons_pos [] incl_la_lookAwayText
  simp [emitted, hr, hpp, hchk, htm, countEvents_append, hsusp, heye, hla, countEvents_nil]
  rw [countEvents_cons_pos _ incl_la_lookAwayText, heye]

/-- State and tick exhibiting the suspicious-items cooldown reset without an
event: the 2000 ms window has elapsed, no suspicious item (indeed no
detection at all) is present, `lastFaceCheckTime` equals the tick time so no
other rule fires either. -/
def c4State : State :=
  { lastFaceCheckTime := 3000
    lastMultipleFacesTime := 0
    lastItemDetectionTime := 0
    lastLookAwayTime := 0
    faceDetected := false
    eventLogs := [] }

def c4Tick : Tick :=
  { time := 3000, tsStr := "", ready := true, preds := [], videoWidth := 640, videoHeight := 480 }

/-- C4, counterexample.  A ready tick at time 3000 with no detections, with
the suspicious-items window elapsed (`lastItemDetectionTime = 0`): the tick
emits no event at all, yet `lastItemDetectionTime` is advanced from 0 to
3000 (line 99 runs whenever the window has elapsed, firing or not).  The
claim says a tick on which the rule's condition is false leaves its
cooldown state unchanged. -/
theorem c4_counterexample :
    emitted c4State c4Tick = [] ∧
    c4State.lastItemDetectionTime = 0 ∧
    (step c4State c4Tick).lastItemDetectionTime = 3000 := by
  refine ⟨by decide, by decide, by decide⟩

/-- C4, amended.  The multiple-faces and look-away cooldown timestamps are
updated only on ticks where the rule emits its event (parts 1 and 2); the
suspicious-items timestamp, however, is rewritten to the current time on
every ready tick whose 2000 ms window has elapsed (part 3), including ticks
on which no suspicious item is present and no event is emitted (part 4). -/
theorem c4_cooldown_amended :
    (∀ (s : State) (tk : Tick),
        (step s tk).lastMultipleFacesTime ≠ s.lastMultipleFacesTime →
        countEvents (emitted s tk) "Multiple faces detected" = 1)
    ∧ (∀ (s : State) (tk : Tick),
        (step s tk).lastLookAwayTime ≠ s.lastLookAwayTime →
        countEvents (emitted s tk) "looking away" = 1)
    ∧ (∀ (s : State) (tk : Tick),
        tk.ready = true → tk.time - s.lastItemDetectionTime > 2000 →
        (step s tk).lastItemDetectionTime = tk.time)
    ∧ (∃ (s : State) (tk : Tick), tk.ready = true ∧ emitted s tk = [] ∧
        (step s tk).lastItemDetectionTime ≠ s.lastItemDetectionTime) := by
  refine ⟨?_, ?_, ?_, ?_⟩
  · intro s tk hne
    by_cases hr : tk.ready = true
    · have hcond : (personPreds tk.preds).length > 1 ∧
          tk.time - s.lastMultipleFacesTime > 5000 := by
        by_contra hc
        exact hne (by simp [step, hr, hc])
      exact countEvents_emitted_mf_fire s tk hr hcond.1 hcond.2
    · have hf : tk.ready = false := by revert hr; cases tk.ready <;> simp
      rw [step_not_ready s tk hf] at hne
      exact absurd rfl hne
  · intro s tk hne
    by_cases hr : tk.ready = true
    · by_cases hlen : (personPreds tk.preds).length = 1
      · cases hpp : personPreds tk.preds with
        | nil => rw [hpp] at hlen; simp at hlen
        | cons person rest =>
          have hrest : rest = [] := by
            rw [hpp] at hlen
            simpa using hlen
          subst hrest
          have hcond : checkLookingAwayBoundingBox person tk.videoWidth = true ∧
              tk.time - s.lastLookAwayTime > 5000 := by
            by_contra hc
            exact hne (by simp [step, hr, hpp, hc])
          exact countEvents_emitted_la_fire s tk person hr hpp hcond.1 hcond.2
      · exact absurd (by simp [step, hr, hlen]) hne
    · have hf : tk.ready = false := by revert hr; cases tk.ready <;> simp
      rw [step_not_ready s tk hf] at hne
      exact absurd rfl hne
  · intro s tk hr ht
    simp [step, hr, ht]
  · exact ⟨c4State, c4Tick, by decide, by decide, by decide⟩

/-- C4, amended, witness: the suspicious-items timestamp is rewritten to the
tick time at the concrete no-detection tick. -/
theorem c4_cooldown_amended_witness :
    (step c4State c4Tick).lastItemDetectionTime = c4Tick.time :=
  c4_cooldown_amended.2.2.1 c4State c4Tick (by decide) (by decide)

/-! ## Prohibited-object rule (C5) -/

lemma countEvents_ite (c : Prop) [Decidable c] (l1 l2 : List LogEntry) (nd : String) :
    countEvents (if c then l1 else l2) nd
      = if c then countEvents l1 nd else countEvents l2 nd := by
  split <;> rfl

lemma countEvents_singleton (e : LogEntry) (nd : String) :
    countEvents [e] nd = if includes nd e.event then 1 else 0 := by
  simp only [countEvents, List.filter_cons]
  split <;> simp_all

lemma filter_ite (q : LogEntry → Bool) (c : Prop) [Decidable c] (l1 l2 : List LogEntry) :
    (if c then l1 else l2).filter q = if c then l1.filter q else l2.filter q := by
  split <;> rfl

lemma filter_si_suspEvents (ts : String) (preds : List Pred) :
    (suspEvents ts preds).filter (fun e => includes "Suspicious Item Detected" e.event)
      = suspEvents ts preds := by
  apply List.filter_eq_self.mpr
  intro e he
  simp only [suspEvents, List.mem_map, List.mem_filter] at he
  obtain ⟨p, _, rfl⟩ := he
  simpa using includes_susp_suspText p.cls

lemma suspEvents_eq_map_cls (ts : String) (preds : List Pred) :
    suspEvents ts preds
      = ((preds.filter (fun p => suspiciousItems.contains p.cls)).map (fun p => p.cls)).map
          (fun c => ⟨ts, suspiciousText c⟩) := by
  rw [suspEvents, List.map_map]
  rfl

lemma countEvents_emitted_si_quiet (s : State) (tk : Tick)
    (hti : ¬ tk.time - s.lastItemDetectionTime > 2000) :
    countEvents (emitted s tk) "Suspicious Item Detected" = 0 := by
  by_cases hr : tk.ready = true
  · cases hpp : personPreds tk.preds with
    | nil =>
      simp [emitted, hr, hpp, hti, countEvents_append, countEvents_ite, countEvents_singleton,
        incl_si_noFaceText, incl_si_mf, countEvents_nil]
    | cons person rest =>
      simp [emitted, hr, hpp, hti, countEvents_append, countEvents_ite, countEvents_singleton,
        incl_si_noFaceText, incl_si_mf, incl_si_lookAwayText, incl_si_eyesClosedText,
        countEvents_nil]
  · rw [emitted_not_ready s tk (by revert hr; cases tk.ready <;> simp)]
    rfl

lemma step_lastItem_quiet (s : State) (tk : Tick)
    (hti : ¬ tk.time - s.lastItemDetectionTime > 2000) :
    (step s tk).lastItemDetectionTime = s.lastItemDetectionTime := by
  by_cases hr : tk.ready = true
  · simp [step, hr, hti]
  · rw [step_not_ready s tk (by revert hr; cases tk.ready <;> simp)]

/-- During a run of ticks that all fall within 2000 ms of the suspicious-items
timestamp, that timestamp does not move and no suspicious-item event is
emitted (whatever the ticks' detections are). -/
lemma no_susp_run (s2 : State) (rest : List Tick)
    (h : ∀ tk2 ∈ rest, tk2.time - s2.lastItemDetectionTime ≤ 2000) :
    (runTrace s2 rest).lastItemDetectionTime = s2.lastItemDetectionTime ∧
    countEvents (runTrace s2 rest).eventLogs "Suspicious Item Detected"
      = countEvents s2.eventLogs "Suspicious Item Detected" := by
  induction rest generalizing s2 with
  | nil => exact ⟨rfl, rfl⟩
  | cons tk2 rest2 ih =>
    have hle := h tk2 (List.mem_cons_self tk2 rest2)
    have hti : ¬ tk2.time - s2.lastItemDetectionTime > 2000 := by omega
    have hq := step_lastItem_quiet s2 tk2 hti
    have hrest : ∀ tk3 ∈ rest2, tk3.time - (step s2 tk2).lastItemDetectionTime ≤ 2000 := by
      intro tk3 hm
      rw [hq]
      exact h tk3 (List.mem_cons_of_mem _ hm)
    obtain ⟨ih1, ih2⟩ := ih (step s2 tk2) hrest
    have e : runTrace s2 (tk2 :: rest2) = runTrace (step s2 tk2) rest2 := rfl
    refine ⟨?_, ?_⟩
    · rw [e, ih1, hq]
    · rw [e, ih2, countEvents_step, countEvents_emitted_si_quiet s2 tk2 hti]
      omega

/-- C5: on a ready tick whose suspicious-item detections are exactly a
"cell phone" and a "book" and whose 2000 ms window has elapsed, the cycle
emits exactly the two distinct suspicious-item events, one per label, in
detection order; and over any subsequent ticks that stay within 2000 ms of
that firing, no further suspicious-item event is emitted, whatever those
ticks detect. -/
theorem c5_prohibited (s : State) (tk : Tick) (rest : List Tick)
    (hr : tk.ready = true)
    (hw : tk.time - s.lastItemDetectionTime > 2000)
    (hdet : (tk.preds.filter (fun p => suspiciousItems.contains p.cls)).map (fun p => p.cls)
      = ["cell phone", "book"])
    (hrest : ∀ tk2 ∈ rest, tk2.time - tk.time ≤ 2000) :
    (emitted s tk).filter (fun e => includes "Suspicious Item Detected" e.event)
      = [⟨tk.tsStr, suspiciousText "cell phone"⟩, ⟨tk.tsStr, suspiciousText "book"⟩] ∧
    countEvents (runTrace (step s tk) rest).eventLogs "Suspicious Item Detected"
      = countEvents (step s tk).eventLogs "Suspicious Item Detected" := by
  have hs : suspEvents tk.tsStr tk.preds
      = [⟨tk.tsStr, suspiciousText "cell phone"⟩, ⟨tk.tsStr, suspiciousText "book"⟩] := by
    rw [suspEvents_eq_map_cls, hdet]
    rfl
  constructor
  · cases hpp : personPreds tk.preds with
    | nil =>
      simp [emitted, hr, hpp, hw, List.filter_append, filter_ite, filter_si_suspEvents, hs,
        incl_si_noFaceText, incl_si_mf, List.filter_cons, includes_susp_suspText]
    | cons person rest2 =>
      simp [emitted, hr, hpp, hw, List.filter_append, filter_ite, filter_si_suspEvents, hs,
        incl_si_noFaceText, incl_si_mf, incl_si_lookAwayText, incl_si_eyesClosedText,
        List.filter_cons, includes_susp_suspText]
  · have hstep : (step s tk).lastItemDetectionTime = tk.time := by simp [step, hr, hw]
    refine (no_susp_run (step s tk) rest ?_).2
    intro tk2 hm
    rw [hstep]
    exact hrest tk2 hm

/-- A non-person detection with the given label. -/
def itemPred (label : String) : Pred := ⟨label, 0, 0, 0, 0⟩

def c5Tick : Tick :=
  { time := 3000, tsStr := "ts", ready := true,
    preds := [itemPred "cell phone", itemPred "book"], videoWidth := 640, videoHeight := 480 }

/-- C5, witness: a fresh session, the phone-and-book tick at 3000, one
following tick at 4000. -/
theorem c5_prohibited_witness :
    (emitted (initState 0) c5Tick).filter
        (fun e => includes "Suspicious Item Detected" e.event)
      = [⟨"ts", suspiciousText "cell phone"⟩, ⟨"ts", suspiciousText "book"⟩] ∧
    countEvents (runTrace (step (initState 0) c5Tick) [absTick 4000]).eventLogs
        "Suspicious Item Detected"
      = countEvents (step (initState 0) c5Tick).eventLogs "Suspicious Item Detected" :=
  c5_prohibited (initState 0) c5Tick [absTick 4000]
    (by decide) (by decide) (by decide) (by decide)

/-! ## Multiple-occupants rule (C6) -/

lemma filter_suspEvents_nil (ts : String) (preds : List Pred) (nd : String)
    (h : ∀ l, suspiciousItems.contains l = true → includes nd (suspiciousText l) = false) :
    (suspEvents ts preds).filter (fun e => includes nd e.event) = [] := by
  apply List.filter_eq_nil_iff.mpr
  intro e he
  simp only [suspEvents, List.mem_map, List.mem_filter] at he
  obtain ⟨p, hp, rfl⟩ := he
  simp [h p.cls hp.2]

lemma countEvents_emitted_mf_quiet (s : State) (tk : Tick)
    (hmm : ¬ tk.time - s.lastMultipleFacesTime > 5000) :
    countEvents (emitted s tk) "Multiple faces detected" = 0 := by
  have hsusp := countEvents_suspEvents_zero tk.tsStr tk.preds (fun l hl => incl_mf_susp hl)
  by_cases hr : tk.ready = true
  · cases hpp : personPreds tk.preds with
    | nil =>
      simp [emitted, hr, hpp, hmm, countEvents_append, countEvents_ite, countEvents_singleton,
        incl_mf_noFaceText, hsusp, countEvents_nil]
    | cons person rest =>
      simp [emitted, hr, hpp, hmm, countEvents_append, countEvents_ite, countEvents_singleton,
        incl_mf_noFaceText, incl_mf_lookAwayText, incl_mf_eyesClosedText, hsusp, countEvents_nil]
  · rw [emitted_not_ready s tk (by revert hr; cases tk.ready <;> simp)]
    rfl

/-- C6: two ready ticks each reporting exactly 2 person detections, the
first with its 5000 ms window elapsed and the second within 5000 ms of the
first: the first tick emits exactly one multiple-faces event, carrying the
count 2 in its text, and the second tick emits none, so the pair contributes
exactly one multiple-faces event to the log. -/
theorem c6_multiple (s : State) (tk1 tk2 : Tick)
    (h1r : tk1.ready = true) (h2r : tk2.ready = true)
    (h1p : (personPreds tk1.preds).length = 2) (h2p : (personPreds tk2.preds).length = 2)
    (helig : tk1.time - s.lastMultipleFacesTime > 5000)
    (hwin : tk2.time - tk1.time ≤ 5000) :
    (emitted s tk1).filter (fun e => includes "Multiple faces detected" e.event)
      = [⟨tk1.tsStr, multipleFacesText 2⟩] ∧
    (emitted (step s tk1) tk2).filter (fun e => includes "Multiple faces detected" e.event)
      = [] ∧
    countEvents (runTrace s [tk1, tk2]).eventLogs "Multiple faces detected"
      = countEvents s.eventLogs "Multiple faces detected" + 1 := by
  have hmf1 : (step s tk1).lastMultipleFacesTime = tk1.time := by
    simp [step, h1r, h1p, helig]
  have hne : ¬ tk2.time - (step s tk1).lastMultipleFacesTime > 5000 := by
    rw [hmf1]
    omega
  have hsusp1 := filter_suspEvents_nil tk1.tsStr tk1.preds "Multiple faces detected"
    (fun l hl => incl_mf_susp hl)
  have hsusp2 := filter_suspEvents_nil tk2.tsStr tk2.preds "Multiple faces detected"
    (fun l hl => incl_mf_susp hl)
  refine ⟨?_, ?_, ?_⟩
  · simp [emitted, h1r, h1p, helig, List.filter_append, filter_ite, hsusp1,
      incl_mf_noFaceText, List.filter_cons, includes_mf_mfText]
  · cases hpp : personPreds tk2.preds with
    | nil => rw [hpp] at h2p; simp at h2p
    | cons person rest =>
      simp [emitted, h2r, h2p, hpp, hne, List.filter_append, filter_ite, hsusp2,
        incl_mf_noFaceText, incl_mf_lookAwayText, incl_mf_eyesClosedText, List.filter_cons]
  · have e : runTrace s [tk1, tk2] = step (step s tk1) tk2 := rfl
    rw [e, countEvents_step, countEvents_step,
      countEvents_emitted_mf_fire s tk1 h1r (by omega) helig,
      countEvents_emitted_mf_quiet _ tk2 hne]

/-- A person detection with a centered bounding box. -/
def personPred : Pred := ⟨"person", 200, 0, 240, 300⟩

def c6Tick (t : Int) : Tick :=
  { time := t, tsStr := "ts", ready := true, preds := [personPred, personPred],
    videoWidth := 640, videoHeight := 480 }

/-- C6, witness: a fresh session with two two-person ticks at 6000 and 7000. -/
theorem c6_multiple_witness :
    (emitted (initState 0) (c6Tick 6000)).filter
        (fun e => includes "Multiple faces detected" e.event)
      = [⟨"ts", multipleFacesText 2⟩] ∧
    (emitted (step (initState 0) (c6Tick 6000)) (c6Tick 7000)).filter
        (fun e => includes "Multiple faces detected" e.event)
      = [] ∧
    countEvents (runTrace (initState 0) [c6Tick 6000, c6Tick 7000]).eventLogs
        "Multiple faces detected"
      = countEvents (initState 0).eventLogs "Multiple faces detected" + 1 :=
  c6_multiple (initState 0) (c6Tick 6000) (c6Tick 7000)
    (by decide) (by decide) (by decide) (by decide) (by decide) (by decide)

/-! ## Eyes-closed rule (C7) -/

lemma countEvents_emitted_ec_fire (s : State) (tk : Tick) (p : Pred)
    (hr : tk.ready = true) (hpp : personPreds tk.preds = [p])
    (hec : checkEyesClosed p tk.videoHeight = true) :
    countEvents (emitted s tk) "Eyes closed" = 1 := by
  have hsusp := countEvents_suspEvents_zero tk.tsStr tk.preds (fun l hl => incl_ec_susp hl)
  simp [emitted, hr, hpp, hec, countEvents_append, countEvents_ite, countEvents_singleton,
    incl_ec_noFaceText, incl_ec_lookAwayText, incl_ec_eyesClosedText, hsusp, countEvents_nil]

lemma countEvents_emitted_ec_quiet (s : State) (tk : Tick)
    (h : ∀ p, personPreds tk.preds = [p] → checkEyesClosed p tk.videoHeight = false) :
    countEvents (emitted s tk) "Eyes closed" = 0 := by
  have hsusp := countEvents_suspEvents_zero tk.tsStr tk.preds (fun l hl => incl_ec_susp hl)
  by_cases hr : tk.ready = true
  · cases hpp : personPreds tk.preds with
    | nil =>
      simp [emitted, hr, hpp, countEvents_append, countEvents_ite, countEvents_singleton,
        incl_ec_noFaceText, incl_ec_mf, hsusp, countEvents_nil]
    | cons p rest =>
      cases rest with
      | nil =>
        have hec := h p hpp
        simp [emitted, hr, hpp, hec, countEvents_append, countEvents_ite, countEvents_singleton,
          incl_ec_noFaceText, incl_ec_mf, incl_ec_lookAwayText, hsusp, countEvents_nil]
      | cons q rest2 =>
        simp [emitted, hr, hpp, countEvents_append, countEvents_ite, countEvents_singleton,
          incl_ec_noFaceText, incl_ec_mf, hsusp, countEvents_nil]
  · rw [emitted_not_ready s tk (by revert hr; cases tk.ready <;> simp)]
    rfl

/-- C7: (1) every ready tick with exactly one person detection whose
bounding-box height over the frame height is below 0.1 emits exactly one
eyes-closed event, whatever the rule state — there is no cooldown; (2) a
tick with zero or several persons, or whose single person fails the height
test, emits none; (3) over any run of qualifying ticks the log gains one
eyes-closed event per tick. -/
theorem c7_eyes :
    (∀ (s : State) (tk : Tick) (p : Pred),
        tk.ready = true → personPreds tk.preds = [p] →
        checkEyesClosed p tk.videoHeight = true →
        countEvents (emitted s tk) "Eyes closed" = 1)
    ∧ (∀ (s : State) (tk : Tick),
        (∀ p, personPreds tk.preds = [p] → checkEyesClosed p tk.videoHeight = false) →
        countEvents (emitted s tk) "Eyes closed" = 0)
    ∧ (∀ (s : State) (ticks : List Tick),
        (∀ tk ∈ ticks, tk.ready = true ∧
          ∃ p, personPreds tk.preds = [p] ∧ checkEyesClosed p tk.videoHeight = true) →
        countEvents (runTrace s ticks).eventLogs "Eyes closed"
          = countEvents s.eventLogs "Eyes closed" + ticks.length) := by
  refine ⟨countEvents_emitted_ec_fire, countEvents_emitted_ec_quiet, ?_⟩
  intro s ticks h
  induction ticks generalizing s with
  | nil => simp [runTrace]
  | cons tk rest ih =>
    obtain ⟨hr, p, hpp, hec⟩ := h tk (List.mem_cons_self tk rest)
    have e : runTrace s (tk :: rest) = runTrace (step s tk) rest := rfl
    rw [e, ih (step s tk) (fun tk2 hm => h tk2 (List.mem_cons_of_mem _ hm)),
      countEvents_step, countEvents_emitted_ec_fire s tk p hr hpp hec]
    simp [List.length_cons]
    omega

/-- A single person whose box height 20 over frame height 480 is below 0.1. -/
def eyesClosedPred : Pred := ⟨"person", 300, 0, 40, 20⟩

def c7Tick : Tick :=
  { time := 1000, tsStr := "ts", ready := true, preds := [eyesClosedPred],
    videoWidth := 640, videoHeight := 480 }

/-- C7, witness: the qualifying tick emits exactly one eyes-closed event
from the fresh session state. -/
theorem c7_eyes_witness :
    countEvents (emitted (initState 0) c7Tick) "Eyes closed" = 1 :=
  c7_eyes.1 (initState 0) c7Tick eyesClosedPred (by decide) (by decide)
    (by simp [checkEyesClosed, eyesClosedPred, c7Tick, decide_eq_true_eq]; norm_num)

/-! ## Session log shape (C8), readiness skip (C9), cycle timestamp (C10) -/

lemma log_extends (s : State) (ticks : List Tick) :
    s.eventLogs <+: (runTrace s ticks).eventLogs := by
  induction ticks generalizing s with
  | nil => exact ⟨[], List.append_nil _⟩
  | cons tk rest ih =>
    have e : runTrace s (tk :: rest) = runTrace (step s tk) rest := rfl
    rw [e]
    have h1 : s.eventLogs <+: (step s tk).eventLogs :=
      ⟨emitted s tk, (step_eventLogs s tk).symm⟩
    exact h1.trans (ih (step s tk))

lemma runTrace_append (s : State) (l1 l2 : List Tick) :
    runTrace s (l1 ++ l2) = runTrace (runTrace s l1) l2 := by
  simp [runTrace, List.foldl_append]

lemma runTrace_take (s : State) (ticks : List Tick) (n : Nat) :
    runTrace s ticks = runTrace (runTrace s (ticks.take n)) (ticks.drop n) := by
  conv_lhs => rw [← List.take_append_drop n ticks]
  rw [runTrace_append]

/-- C8: the log only ever grows by appending at the end — each tick's new
log is the old log followed by that tick's emissions, and the log after any
number of ticks is a prefix of the log after the whole run (so no existing
entry is mutated, removed or reordered, and the length is non-decreasing);
insertion order is chronological order by construction. -/
theorem c8_log :
    (∀ (s : State) (tk : Tick), (step s tk).eventLogs = s.eventLogs ++ emitted s tk)
    ∧ (∀ (s : State) (ticks : List Tick) (n : Nat),
        (runTrace s (ticks.take n)).eventLogs <+: (runTrace s ticks).eventLogs)
    ∧ (∀ (s : State) (ticks : List Tick) (n : Nat),
        ((runTrace s (ticks.take n)).eventLogs).length
          ≤ ((runTrace s ticks).eventLogs).length) := by
  have h2 : ∀ (s : State) (ticks : List Tick) (n : Nat),
      (runTrace s (ticks.take n)).eventLogs <+: (runTrace s ticks).eventLogs := by
    intro s ticks n
    rw [runTrace_take s ticks n]
    exact log_extends _ _
  exact ⟨step_eventLogs, h2, fun s ticks n => (h2 s ticks n).length_le⟩

/-- C9: on a tick whose video source is not ready (`readyState < 2`), the
cycle is skipped atomically: the state (all four timer refs, the flag and
the log) is unchanged, nothing is emitted, and the detections play no role —
the skip is the same whatever the model would have returned. -/
theorem c9_skip (s : State) (tk : Tick) (h : tk.ready = false) :
    step s tk = s ∧ emitted s tk = [] ∧
    (∀ (preds2 : List Pred), step s { tk with preds := preds2 } = s) := by
  refine ⟨step_not_ready s tk h, emitted_not_ready s tk h, ?_⟩
  intro preds2
  exact step_not_ready s _ h

def c9Tick : Tick :=
  { time := 1000, tsStr := "", ready := false, preds := [], videoWidth := 640, videoHeight := 480 }

/-- C9, witness: a not-ready tick leaves the fresh session state unchanged
and emits nothing. -/
theorem c9_skip_witness :
    step (initState 0) c9Tick = initState 0 ∧ emitted (initState 0) c9Tick = [] :=
  ⟨(c9_skip (initState 0) c9Tick (by decide)).1,
   (c9_skip (initState 0) c9Tick (by decide)).2.1⟩

lemma emitted_ts (s : State) (tk : Tick) : ∀ e ∈ emitted s tk, e.timestamp = tk.tsStr := by
  intro e he
  by_cases hr : tk.ready = true
  · simp only [emitted, hr, if_true] at he
    rcases List.mem_append.mp he with he | he
    · rcases List.mem_append.mp he with he | he
      · rcases List.mem_append.mp he with he | he
        · split at he
          · rw [List.mem_singleton.mp he]
          · exact absurd he (List.not_mem_nil e)
        · split at he
          · rw [List.mem_singleton.mp he]
          · exact absurd he (List.not_mem_nil e)
      · split at he
        · simp only [suspEvents, List.mem_map] at he
          obtain ⟨p, -, rfl⟩ := he
          rfl
        · exact absurd he (List.not_mem_nil e)
    · split at he
      · cases hpp : personPreds tk.preds with
        | nil =>
          rw [hpp] at he
          exact absurd he (List.not_mem_nil e)
        | cons person rest =>
          rw [hpp] at he
          rcases List.mem_append.mp he with he | he
          · split at he
            · rw [List.mem_singleton.mp he]
            · exact absurd he (List.not_mem_nil e)
          · split at he
            · rw [List.mem_singleton.mp he]
            · exact absurd he (List.not_mem_nil e)
      · exact absurd he (List.not_mem_nil e)
  · rw [emitted_not_ready s tk (by revert hr; cases tk.ready <;> simp)] at he
    exact absurd he (List.not_mem_nil e)

/-- C10: the timestamp string is computed once per cycle, before the rules
run, so every event emitted during one cycle carries the tick's timestamp
string; and the cycle's emissions are appended to the log as one in-order
block, so their relative order in the log is their emission order. -/
theorem c10_timestamp (s : State) (tk : Tick) :
    (emitted s tk).all (fun e => e.timestamp == tk.tsStr) = true ∧
    (step s tk).eventLogs = s.eventLogs ++ emitted s tk := by
  refine ⟨?_, step_eventLogs s tk⟩
  rw [List.all_eq_true]
  intro e he
  have h := emitted_ts s tk e he
  simp [h]

end ProctorVision
